import Mathlib

/-!
Verification of keyboards/ergodox_ez/shine/keymaps/freevoid_main/config.h.

The header is a flat block of preprocessor definitions.  The development
embeds the text of the header, reads it the way a C preprocessor does
(line splicing, comment removal, directive recognition), evaluates the
replacement text of every macro, and proves the properties of the
resulting definition set.
-/

namespace ConfigH

/-! ## The source text -/

/-- The fourteen physical lines of config.h, in order.  The file does not end
with a newline character. -/
def configLines : List String :=
  [ "/*"
  , "  Set any config.h overrides for your specific keymap here."
  , "  See config.h options at https://docs.qmk.fm/#/config_options?id=the-configh-file"
  , "*/"
  , "#define ORYX_CONFIGURATOR"
  , "#define IGNORE_MOD_TAP_INTERRUPT"
  , "#define USB_SUSPEND_WAKEUP_DELAY 0"
  , "#define CAPS_LOCK_STATUS"
  , "#define FIRMWARE_VERSION u8\"lzxz0/AZjZE\""
  , "#define RAW_USAGE_PAGE 0xFF60"
  , "#define RAW_USAGE_ID 0x61"
  , "#define LAYER_STATE_8BIT"
  , ""
  , "#define DOUBLE_REPORT" ]

/-- The text of config.h: its lines joined by newline characters. -/
def configH : String := String.intercalate "\n" configLines

/-! ## Characters -/

/-- The double quote character. -/
def dquote : Char := Char.ofNat 34

/-- The single quote character. -/
def squote : Char := Char.ofNat 39

/-- The backslash character. -/
def backslash : Char := Char.ofNat 92

/-- The newline character. -/
def newline : Char := Char.ofNat 10

/-- White space inside a line: space, tab, vertical tab, form feed, carriage return. -/
def isBlank (c : Char) : Bool :=
  c.toNat = 32 || c.toNat = 9 || c.toNat = 11 || c.toNat = 12 || c.toNat = 13

/-- Decimal digit. -/
def isDigit (c : Char) : Bool := 48 ≤ c.toNat && c.toNat ≤ 57

/-- First character of an identifier: a letter or the underscore. -/
def isIdStart (c : Char) : Bool :=
  (65 ≤ c.toNat && c.toNat ≤ 90) || (97 ≤ c.toNat && c.toNat ≤ 122) || c.toNat = 95

/-- Character of an identifier. -/
def isIdChar (c : Char) : Bool := isIdStart c || isDigit c

/-- Remove trailing white space. -/
def trimRight (cs : List Char) : List Char := (cs.reverse.dropWhile isBlank).reverse

/-- Remove white space on both sides. -/
def trim (cs : List Char) : List Char := trimRight (cs.dropWhile isBlank)

/-! ## Translation phases 1 to 3 -/

/-- Phase 2: a backslash immediately followed by a newline is deleted. -/
def splice : List Char → List Char
  | [] => []
  | [c] => [c]
  | c :: d :: ds =>
    if c = backslash ∧ d = newline then splice ds else c :: splice (d :: ds)

/-- Split a text into lines at newline characters. -/
def splitLines : List Char → List (List Char)
  | [] => [[]]
  | c :: cs =>
    match splitLines cs with
    | [] => [[c]]
    | l :: ls => if c = newline then [] :: l :: ls else (c :: l) :: ls

/-- State of the comment scanner. -/
inductive Mode
  | code        -- ordinary text
  | slash       -- a slash has been read in ordinary text
  | block       -- inside a block comment
  | blockStar   -- inside a block comment, a star has been read
  | line        -- inside a line comment
  | str         -- inside a string literal
  | strEsc      -- inside a string literal, after a backslash
  | chr         -- inside a character constant
  | chrEsc      -- inside a character constant, after a backslash
  deriving DecidableEq

/-- One step of the comment scanner in ordinary text. -/
def stepCode (c : Char) : List Char × Mode :=
  if c = '/' then ([], Mode.slash)
  else if c = dquote then ([c], Mode.str)
  else if c = squote then ([c], Mode.chr)
  else ([c], Mode.code)

/-- One step of the comment scanner: the characters emitted and the next state.
Each comment is replaced by one space. -/
def step : Mode → Char → List Char × Mode
  | Mode.code, c => stepCode c
  | Mode.slash, c =>
    if c = '*' then ([' '], Mode.block)
    else if c = '/' then ([' '], Mode.line)
    else let r := stepCode c; ('/' :: r.1, r.2)
  | Mode.block, c => if c = '*' then ([], Mode.blockStar) else ([], Mode.block)
  | Mode.blockStar, c =>
    if c = '/' then ([], Mode.code)
    else if c = '*' then ([], Mode.blockStar)
    else ([], Mode.block)
  | Mode.line, _ => ([], Mode.line)
  | Mode.str, c =>
    if c = backslash then ([c], Mode.strEsc)
    else if c = dquote then ([c], Mode.code)
    else ([c], Mode.str)
  | Mode.strEsc, c => ([c], Mode.str)
  | Mode.chr, c =>
    if c = backslash then ([c], Mode.chrEsc)
    else if c = squote then ([c], Mode.code)
    else ([c], Mode.chr)
  | Mode.chrEsc, c => ([c], Mode.chr)

/-- The scanner state at the end of a line: only a block comment continues on
the next line. -/
def endOfLine : Mode → List Char × Mode
  | Mode.slash => (['/'], Mode.code)
  | Mode.block => ([], Mode.block)
  | Mode.blockStar => ([], Mode.block)
  | _ => ([], Mode.code)

/-- Phase 3 on one line: the line with its comments replaced by spaces, and
the scanner state in which the next line starts. -/
def stripComments : Mode → List Char → List Char × Mode
  | m, [] => endOfLine m
  | m, c :: cs =>
    let s := step m c
    let r := stripComments s.2 cs
    (s.1 ++ r.1, r.2)

/-! ## Phase 4: directives -/

/-- A line of the header after comment removal. -/
inductive Line
  | blank                                   -- white space only
  | comment                                 -- nothing but (part of) a comment
  | define (name : String) (body : String)  -- object-like macro definition
  | defineFn (name : String)                -- function-like macro definition
  | conditional (dir : String) (arg : String) -- if, ifdef, ifndef, elif, else, endif
  | undef (name : String)
  | incl (arg : String)                     -- include
  | other (dir : String)                    -- any other or malformed directive
  | text (s : String)                       -- not a directive
  deriving DecidableEq

/-- The directive names that open, switch or close a conditional group. -/
def conditionalNames : List String := ["if", "ifdef", "ifndef", "elif", "else", "endif"]

/-- Read a define directive from the text that follows the word define. -/
def parseDefine (rest : List Char) : Line :=
  let r := rest.dropWhile isBlank
  match r with
  | [] => Line.other "define"
  | c :: _ =>
    if isIdStart c then
      let name := r.takeWhile isIdChar
      let after := r.dropWhile isIdChar
      match after with
      | [] => Line.define (String.mk name) ""
      | d :: _ =>
        if d = '(' then Line.defineFn (String.mk name)
        else Line.define (String.mk name) (String.mk (trim after))
    else Line.other "define"

/-- Read a directive from the text that follows the number sign. -/
def parseDirective (rest : List Char) : Line :=
  let r := rest.dropWhile isBlank
  let dir := String.mk (r.takeWhile isIdChar)
  let arg := r.dropWhile isIdChar
  if dir = "define" then parseDefine arg
  else if dir = "undef" then Line.undef (String.mk (trim arg))
  else if dir = "include" then Line.incl (String.mk (trim arg))
  else if dir ∈ conditionalNames then Line.conditional dir (String.mk (trim arg))
  else Line.other dir

/-- Classify one physical line, given the scanner state at its start. -/
def parseLine (m : Mode) (raw : List Char) : Line × Mode :=
  let s := stripComments m raw
  let t := s.1.dropWhile isBlank
  match t with
  | [] =>
    if m = Mode.code ∧ raw.all isBlank then (Line.blank, s.2) else (Line.comment, s.2)
  | c :: rest =>
    if c = '#' then (parseDirective rest, s.2)
    else (Line.text (String.mk (trimRight t)), s.2)

/-- Classify the lines of a text in order, threading the scanner state. -/
def parseLines : Mode → List (List Char) → List Line
  | _, [] => []
  | m, l :: ls =>
    let r := parseLine m l
    r.1 :: parseLines r.2 ls

/-- Read a header: splice, split into lines, classify every line. -/
def readHeader (s : String) : List Line :=
  parseLines Mode.code (splitLines (splice s.toList))

/-- The lines of config.h. -/
def configParsed : List Line := readHeader configH

/-! ## The definition set -/

/-- An object-like macro definition: the name and its replacement text. -/
structure Define where
  name : String
  body : String
  deriving DecidableEq

/-- The object-like definitions among the lines of a header, in order. -/
def defines : List Line → List Define
  | [] => []
  | Line.define n b :: ls => ⟨n, b⟩ :: defines ls
  | _ :: ls => defines ls

/-- The definitions of config.h. -/
def configDefines : List Define := defines configParsed

/-- The names defined by a list of definitions, one per define line. -/
def definedNames (ds : List Define) : List String := ds.map Define.name

/-- The replacement text of a name; a later definition overrides an earlier
one.  The result none means the name is not defined. -/
def lookup (n : String) : List Define → Option String
  | [] => none
  | d :: ds =>
    match lookup n ds with
    | some b => some b
    | none => if d.name = n then some d.body else none

/-- Delete the physical line with index i (counted from 0) from a text. -/
def removeLine (i : Nat) (s : String) : String :=
  String.intercalate "\n" (((splitLines s.toList).eraseIdx i).map String.mk)

/-! ## Values of replacement texts -/

/-- Encoding prefix of a string literal. -/
inductive Encoding
  | plain   -- no prefix: execution character set
  | utf8    -- u8
  | utf16   -- u
  | utf32   -- U
  | wide    -- L
  deriving DecidableEq

/-- The value denoted by the replacement text of a macro. -/
inductive Value
  | flag                              -- empty replacement text: presence only
  | int (n : Int)                     -- integer constant
  | str (enc : Encoding) (s : String) -- string literal
  deriving DecidableEq

/-- Value of a digit character in bases up to sixteen. -/
def digitValue (c : Char) : Option Nat :=
  if isDigit c then some (c.toNat - 48)
  else if 97 ≤ c.toNat ∧ c.toNat ≤ 102 then some (c.toNat - 87)
  else if 65 ≤ c.toNat ∧ c.toNat ≤ 70 then some (c.toNat - 55)
  else none

/-- Read a run of digits in the given base; fails on any other character. -/
def readDigits (base : Nat) : Nat → List Char → Option Nat
  | acc, [] => some acc
  | acc, c :: cs =>
    match digitValue c with
    | some d => if d < base then readDigits base (acc * base + d) cs else none
    | none => none

/-- Value of an integer constant without suffix: hexadecimal after 0x or 0X,
octal after a leading 0, decimal otherwise. -/
def evalInteger : List Char → Option Nat
  | [] => none
  | [c] => if isDigit c then some (c.toNat - 48) else none
  | c :: d :: ds =>
    if c = '0' then
      if d = 'x' ∨ d = 'X' then (if ds.isEmpty then none else readDigits 16 0 ds)
      else readDigits 8 0 (d :: ds)
    else if isDigit c then readDigits 10 0 (c :: d :: ds)
    else none

/-- The character denoted by a simple escape sequence. -/
def simpleEscape (c : Char) : Option Char :=
  if c = 'n' then some newline
  else if c = 't' then some (Char.ofNat 9)
  else if c = 'r' then some (Char.ofNat 13)
  else if c = '0' then some (Char.ofNat 0)
  else if c = backslash ∨ c = dquote ∨ c = squote then some c
  else none

/-- The characters of a string literal, read from just after the opening
quote; the flag says that the previous character was a backslash.  Nothing may
follow the closing quote. -/
def readStringBody : Bool → List Char → Option (List Char)
  | _, [] => none
  | true, c :: cs =>
    match simpleEscape c with
    | some x => (readStringBody false cs).map (fun r => x :: r)
    | none => none
  | false, c :: cs =>
    if c = dquote then (if cs.isEmpty then some [] else none)
    else if c = backslash then readStringBody true cs
    else (readStringBody false cs).map (fun r => c :: r)

/-- Split an encoding prefix off a string literal; the rest starts after the
opening quote. -/
def readEncoding (cs : List Char) : Option (Encoding × List Char) :=
  match cs with
  | a :: r1 =>
    if a = dquote then some (Encoding.plain, r1)
    else match r1 with
      | b :: r2 =>
        if b = dquote then
          if a = 'u' then some (Encoding.utf16, r2)
          else if a = 'U' then some (Encoding.utf32, r2)
          else if a = 'L' then some (Encoding.wide, r2)
          else none
        else match r2 with
          | c :: r3 => if a = 'u' ∧ b = '8' ∧ c = dquote then some (Encoding.utf8, r3) else none
          | [] => none
      | [] => none
  | [] => none

/-- Value of a replacement text: empty, an integer constant with an optional
minus sign, or a single string literal.  Any other text has no value here. -/
def evalBody (body : String) : Option Value :=
  match body.toList with
  | [] => some Value.flag
  | c :: cs =>
    if c = '-' then (evalInteger (cs.dropWhile isBlank)).map (fun n => Value.int (-(n : Int)))
    else if isDigit c then (evalInteger (c :: cs)).map (fun n => Value.int (n : Int))
    else (readEncoding (c :: cs)).bind (fun p =>
      (readStringBody false p.2).map (fun r => Value.str p.1 (String.mk r)))

/-- Value of a macro in a definition set; none when the name is not defined
or its replacement text has no value. -/
def macroValue (n : String) (ds : List Define) : Option Value :=
  (lookup n ds).bind evalBody

/-- What a build supplies from outside the header: the macro names already
defined when the header is read, the truth of the expression of an if or elif
directive given the names defined at that point, and the definitions an
included file contributes. -/
structure Build where
  predefined : List String
  evalIf : List String → String → Bool
  included : String → List Define

/-- One open conditional group: whether the enclosing text is being read,
whether the current branch is being read, and whether some branch of the group
has been taken already. -/
structure Frame where
  parent : Bool
  active : Bool
  taken : Bool
  deriving DecidableEq

/-- State of the directive processor. -/
structure PState where
  names : List String     -- names currently defined
  defs : List Define      -- object-like definitions made so far and still in force
  stack : List Frame      -- open conditional groups, innermost first
  deriving DecidableEq

/-- The current text is read when every open group is in an active branch. -/
def PState.reading (st : PState) : Bool := st.stack.all Frame.active

/-- Open a conditional group whose condition has the given truth. -/
def openGroup (st : PState) (c : Bool) : PState :=
  { st with stack := ⟨st.reading, st.reading && c, c⟩ :: st.stack }

/-- Process a conditional directive; none when an elif, else or endif has no
open group to belong to. -/
def stepConditional (b : Build) (st : PState) (dir arg : String) : Option PState :=
  if dir = "ifdef" then some (openGroup st (decide (arg ∈ st.names)))
  else if dir = "ifndef" then some (openGroup st (decide (arg ∉ st.names)))
  else if dir = "if" then some (openGroup st (b.evalIf st.names arg))
  else match st.stack with
    | [] => none
    | f :: fs =>
      if dir = "elif" then
        let c := b.evalIf st.names arg
        some { st with stack := ⟨f.parent, f.parent && !f.taken && c, f.taken || c⟩ :: fs }
      else if dir = "else" then
        some { st with stack := ⟨f.parent, f.parent && !f.taken, true⟩ :: fs }
      else if dir = "endif" then some { st with stack := fs }
      else none

/-- Process one line. -/
def stepLine (b : Build) (st : PState) : Line → Option PState
  | Line.conditional dir arg => stepConditional b st dir arg
  | Line.define n body =>
    if st.reading then some { st with names := n :: st.names, defs := st.defs ++ [⟨n, body⟩] }
    else some st
  | Line.defineFn n =>
    if st.reading then some { st with names := n :: st.names } else some st
  | Line.undef n =>
    if st.reading then
      some { st with names := st.names.filter (fun x => x ≠ n),
                     defs := st.defs.filter (fun d => d.name ≠ n) }
    else some st
  | Line.incl arg =>
    if st.reading then
      some { st with names := (b.included arg).map Define.name ++ st.names,
                     defs := st.defs ++ b.included arg }
    else some st
  | Line.other dir => if st.reading ∧ dir = "error" then none else some st
  | _ => some st

/-- Process the lines of a header in order. -/
def runLines (b : Build) : PState → List Line → Option PState
  | st, [] => if st.stack.isEmpty then some st else none
  | st, l :: ls =>
    match stepLine b st l with
    | some st1 => runLines b st1 ls
    | none => none

/-- The object-like definitions a header makes in a given build; none when the
header is rejected (unbalanced conditionals, an error directive). -/
def preprocess (b : Build) (ls : List Line) : Option (List Define) :=
  (runLines b ⟨b.predefined, [], []⟩ ls).map PState.defs

/-! ## The configuration record -/

/-- Modelled from the spec: the configuration record of the scenario in the
section on testable properties.  The consuming framework is not part of the
header; the record has one field per recognised name.  A presence-only flag is
a boolean, a scalar is present with its value or absent. -/
structure Config where
  configurator : Bool
  ignoreModTapInterrupt : Bool
  usbSuspendWakeupDelay : Option Int
  capsLockStatus : Bool
  firmwareVersion : Option String
  rawUsagePage : Option Int
  rawUsageId : Option Int
  layerStateBitWidth : Option Nat
  doubleReport : Bool
  deriving DecidableEq

/-- A name is defined in a definition set. -/
def isDefined (n : String) (ds : List Define) : Bool := (lookup n ds).isSome

/-- The integer value of a macro, when it is defined as an integer constant. -/
def intValue (n : String) (ds : List Define) : Option Int :=
  match macroValue n ds with
  | some (Value.int k) => some k
  | _ => none

/-- The string value of a macro, when it is defined as a string literal. -/
def stringValue (n : String) (ds : List Define) : Option String :=
  match macroValue n ds with
  | some (Value.str _ s) => some s
  | _ => none

/-- Modelled from the spec: the layer-state width selectors of the framework
and the width in bits each one selects. -/
def layerStateSelectors : List (String × Nat) :=
  [("LAYER_STATE_8BIT", 8), ("LAYER_STATE_16BIT", 16), ("LAYER_STATE_32BIT", 32)]

/-- Modelled from the spec: the widths selected by the selectors that are
defined. -/
def selectedWidths (ds : List Define) : List Nat :=
  (layerStateSelectors.filter (fun p => isDefined p.1 ds)).map Prod.snd

/-- Modelled from the spec: the layer-state width, present when exactly one
selector is defined. -/
def layerStateBitWidth (ds : List Define) : Option Nat :=
  match selectedWidths ds with
  | [w] => some w
  | _ => none

/-- Modelled from the spec: the configuration record derived from a
definition set. -/
def deriveConfig (ds : List Define) : Config :=
  { configurator := isDefined "ORYX_CONFIGURATOR" ds
    ignoreModTapInterrupt := isDefined "IGNORE_MOD_TAP_INTERRUPT" ds
    usbSuspendWakeupDelay := intValue "USB_SUSPEND_WAKEUP_DELAY" ds
    capsLockStatus := isDefined "CAPS_LOCK_STATUS" ds
    firmwareVersion := stringValue "FIRMWARE_VERSION" ds
    rawUsagePage := intValue "RAW_USAGE_PAGE" ds
    rawUsageId := intValue "RAW_USAGE_ID" ds
    layerStateBitWidth := layerStateBitWidth ds
    doubleReport := isDefined "DOUBLE_REPORT" ds }

/-- The kind of a definition in the data model. -/
inductive Kind
  | presence
  | scalar
  deriving DecidableEq

/-- The kind of a definition: presence-only when the replacement text is
empty, scalar when it denotes an integer or a string; none otherwise. -/
def kindOf (d : Define) : Option Kind :=
  match evalBody d.body with
  | some Value.flag => some Kind.presence
  | some (Value.int _) => some Kind.scalar
  | some (Value.str _ _) => some Kind.scalar
  | none => none

/-- The name an object-like define line defines; none for any other line. -/
def definedName : Line → Option String
  | Line.define n _ => some n
  | _ => none

/-- The name defined by the physical line with index i of config.h. -/
def nameAt (i : Nat) : Option String := (configParsed[i]?).bind definedName

/-- The definitions of config.h with the physical line of index 6 (line 7,
the wake-delay definition) removed. -/
def configWithoutDelay : List Define := defines (readHeader (removeLine 6 configH))

set_option maxRecDepth 100000 in
/-- The classification of the fourteen lines of config.h. -/
theorem configParsed_eq :
    configParsed =
      [ Line.comment, Line.comment, Line.comment, Line.comment,
        Line.define "ORYX_CONFIGURATOR" "",
        Line.define "IGNORE_MOD_TAP_INTERRUPT" "",
        Line.define "USB_SUSPEND_WAKEUP_DELAY" "0",
        Line.define "CAPS_LOCK_STATUS" "",
        Line.define "FIRMWARE_VERSION" "u8\"lzxz0/AZjZE\"",
        Line.define "RAW_USAGE_PAGE" "0xFF60",
        Line.define "RAW_USAGE_ID" "0x61",
        Line.define "LAYER_STATE_8BIT" "",
        Line.blank,
        Line.define "DOUBLE_REPORT" "" ] := by
  decide

/-- The nine definitions of config.h with their replacement texts. -/
theorem configDefines_eq :
    configDefines =
      [ ⟨"ORYX_CONFIGURATOR", ""⟩,
        ⟨"IGNORE_MOD_TAP_INTERRUPT", ""⟩,
        ⟨"USB_SUSPEND_WAKEUP_DELAY", "0"⟩,
        ⟨"CAPS_LOCK_STATUS", ""⟩,
        ⟨"FIRMWARE_VERSION", "u8\"lzxz0/AZjZE\""⟩,
        ⟨"RAW_USAGE_PAGE", "0xFF60"⟩,
        ⟨"RAW_USAGE_ID", "0x61"⟩,
        ⟨"LAYER_STATE_8BIT", ""⟩,
        ⟨"DOUBLE_REPORT", ""⟩ ] := by
  unfold configDefines
  rw [configParsed_eq]
  rfl

/-- Filtering out one name leaves the lookup of every other name unchanged. -/
theorem lookup_filter_ne (k n : String) (h : n ≠ k) (ds : List Define) :
    lookup n (ds.filter (fun d => d.name ≠ k)) = lookup n ds := by
  induction ds with
  | nil => rfl
  | cons d ds ih =>
    rw [List.filter_cons]
    by_cases hd : d.name = k
    · have hn : ¬ d.name = n := fun e => h (e.symm.trans hd)
      rw [if_neg (by simpa using hd), ih]
      show lookup n ds = (match lookup n ds with
        | some b => some b
        | none => if d.name = n then some d.body else none)
      cases lookup n ds <;> simp [hn]
    · rw [if_pos (by simpa using hd)]
      show (match lookup n (ds.filter (fun d => d.name ≠ k)) with
        | some b => some b
        | none => if d.name = n then some d.body else none) = (match lookup n ds with
        | some b => some b
        | none => if d.name = n then some d.body else none)
      rw [ih]

/-- Filtering out one name makes that name undefined. -/
theorem lookup_filter_self (k : String) (ds : List Define) :
    lookup k (ds.filter (fun d => d.name ≠ k)) = none := by
  induction ds with
  | nil => rfl
  | cons d ds ih =>
    rw [List.filter_cons]
    by_cases hd : d.name = k
    · rw [if_neg (by simpa using hd), ih]
    · rw [if_pos (by simpa using hd)]
      show (match lookup k (ds.filter (fun d => d.name ≠ k)) with
        | some b => some b
        | none => if d.name = k then some d.body else none) = none
      rw [ih]
      simp [hd]

set_option maxRecDepth 100000 in
/-- Removing line 7 removes exactly the wake-delay definition. -/
theorem configWithoutDelay_eq :
    configWithoutDelay =
      configDefines.filter (fun d => d.name ≠ "USB_SUSPEND_WAKEUP_DELAY") := by
  decide

/-- Beyond the fourteen lines there is no line. -/
theorem nameAt_none_of_le (i : Nat) (h : 14 ≤ i) : nameAt i = none := by
  unfold nameAt
  rw [configParsed_eq, List.getElem?_eq_none (by simpa using h)]
  rfl

set_option maxRecDepth 100000 in
/-- Within the fourteen lines no two define lines give the same name. -/
theorem nameAt_distinct_bounded :
    ∀ i < 14, ∀ j < 14, i ≠ j → nameAt i = none ∨ nameAt i ≠ nameAt j := by
  decide

/-- C1: reading config.h as a list of macro definitions yields exactly nine
entries, with the replacement texts of the source and the values the spec
lists, and the configuration record derived from them is the record of the
scenario. -/
theorem config_entries_and_record :
    configDefines.length = 9 ∧
    configDefines =
      [ ⟨"ORYX_CONFIGURATOR", ""⟩,
        ⟨"IGNORE_MOD_TAP_INTERRUPT", ""⟩,
        ⟨"USB_SUSPEND_WAKEUP_DELAY", "0"⟩,
        ⟨"CAPS_LOCK_STATUS", ""⟩,
        ⟨"FIRMWARE_VERSION", "u8\"lzxz0/AZjZE\""⟩,
        ⟨"RAW_USAGE_PAGE", "0xFF60"⟩,
        ⟨"RAW_USAGE_ID", "0x61"⟩,
        ⟨"LAYER_STATE_8BIT", ""⟩,
        ⟨"DOUBLE_REPORT", ""⟩ ] ∧
    configDefines.map (fun d => (d.name, evalBody d.body)) =
      [ ("ORYX_CONFIGURATOR", some Value.flag),
        ("IGNORE_MOD_TAP_INTERRUPT", some Value.flag),
        ("USB_SUSPEND_WAKEUP_DELAY", some (Value.int 0)),
        ("CAPS_LOCK_STATUS", some Value.flag),
        ("FIRMWARE_VERSION", some (Value.str Encoding.utf8 "lzxz0/AZjZE")),
        ("RAW_USAGE_PAGE", some (Value.int 0xFF60)),
        ("RAW_USAGE_ID", some (Value.int 0x61)),
        ("LAYER_STATE_8BIT", some Value.flag),
        ("DOUBLE_REPORT", some Value.flag) ] ∧
    deriveConfig configDefines =
      { configurator := true
        ignoreModTapInterrupt := true
        usbSuspendWakeupDelay := some 0
        capsLockStatus := true
        firmwareVersion := some "lzxz0/AZjZE"
        rawUsagePage := some 0xFF60
        rawUsageId := some 0x61
        layerStateBitWidth := some 8
        doubleReport := true } := by
  rw [configDefines_eq]
  refine ⟨rfl, rfl, ?_, ?_⟩ <;> decide

/-- C2: no macro name is defined more than once in config.h: the list of
defined names has no duplicates, any two distinct physical lines that are
define lines define different names, and looking up the name of any define
line returns the replacement text of that very line. -/
theorem defined_names_unique :
    (definedNames configDefines).Nodup ∧
    (∀ i j : Nat, i ≠ j → ∀ n : String, nameAt i = some n → nameAt j ≠ some n) ∧
    (∀ d ∈ configDefines, lookup d.name configDefines = some d.body) := by
  refine ⟨?_, ?_, ?_⟩
  · rw [configDefines_eq]
    decide
  · intro i j hij n hi hj
    by_cases h1 : i < 14
    · by_cases h2 : j < 14
      · rcases nameAt_distinct_bounded i h1 j h2 hij with h | h
        · rw [h] at hi
          exact Option.noConfusion hi
        · exact h (hi.trans hj.symm)
      · rw [nameAt_none_of_le j (Nat.le_of_not_lt h2)] at hj
        exact Option.noConfusion hj
    · rw [nameAt_none_of_le i (Nat.le_of_not_lt h1)] at hi
      exact Option.noConfusion hi
  · rw [configDefines_eq]
    decide

/-- Witness of C2 at lines 7 and 10 of the file. -/
theorem defined_names_unique_witness :
    (6 : Nat) ≠ 9 ∧ nameAt 6 = some "USB_SUSPEND_WAKEUP_DELAY" ∧
      nameAt 9 ≠ some "USB_SUSPEND_WAKEUP_DELAY" :=
  ⟨by decide, by rw [nameAt, configParsed_eq]; rfl,
    defined_names_unique.2.1 6 9 (by decide) "USB_SUSPEND_WAKEUP_DELAY"
      (by rw [nameAt, configParsed_eq]; rfl)⟩

/-- C3: RAW_USAGE_PAGE evaluates to 0xFF60 = 65376 and RAW_USAGE_ID to
0x61 = 97; both are non-negative and below 2^16, so reduction modulo 2^16
leaves them unchanged, and the page lies in the vendor-defined range
0xFF00..0xFFFF. -/
theorem raw_usage_fits_16bit :
    ∃ p i : Int,
      macroValue "RAW_USAGE_PAGE" configDefines = some (Value.int p) ∧
      macroValue "RAW_USAGE_ID" configDefines = some (Value.int i) ∧
      p = 0xFF60 ∧ p = 65376 ∧ i = 0x61 ∧ i = 97 ∧
      0 ≤ p ∧ p < 2 ^ 16 ∧ 0 ≤ i ∧ i < 2 ^ 16 ∧
      p % 2 ^ 16 = p ∧ i % 2 ^ 16 = i ∧
      0xFF00 ≤ p ∧ p ≤ 0xFFFF := by
  refine ⟨65376, 97, ?_, ?_, ?_⟩
  · rw [configDefines_eq]; decide
  · rw [configDefines_eq]; decide
  · decide

/-- C4: absence and explicit zero of the wake delay are distinguishable.  In
config.h the name USB_SUSPEND_WAKEUP_DELAY is present with the non-negative
integer value 0; with line 7 (that define line) removed from the text the
name is absent, and the lookup of every other name is unchanged. -/
theorem wakeup_delay_absent_or_zero :
    (splitLines configH.toList)[6]? = some "#define USB_SUSPEND_WAKEUP_DELAY 0".toList ∧
    lookup "USB_SUSPEND_WAKEUP_DELAY" configDefines = some "0" ∧
    (∃ k : Int, macroValue "USB_SUSPEND_WAKEUP_DELAY" configDefines = some (Value.int k) ∧
      0 ≤ k ∧ k = 0) ∧
    lookup "USB_SUSPEND_WAKEUP_DELAY" configWithoutDelay = none ∧
    macroValue "USB_SUSPEND_WAKEUP_DELAY" configWithoutDelay = none ∧
    macroValue "USB_SUSPEND_WAKEUP_DELAY" configDefines ≠
      macroValue "USB_SUSPEND_WAKEUP_DELAY" configWithoutDelay ∧
    (∀ n : String, n ≠ "USB_SUSPEND_WAKEUP_DELAY" →
      lookup n configWithoutDelay = lookup n configDefines ∧
      macroValue n configWithoutDelay = macroValue n configDefines) := by
  have hnone : lookup "USB_SUSPEND_WAKEUP_DELAY" configWithoutDelay = none := by
    rw [configWithoutDelay_eq]
    exact lookup_filter_self _ _
  have hval : macroValue "USB_SUSPEND_WAKEUP_DELAY" configDefines = some (Value.int 0) := by
    rw [configDefines_eq]; decide
  have hvalnone : macroValue "USB_SUSPEND_WAKEUP_DELAY" configWithoutDelay = none := by
    unfold macroValue
    rw [hnone]
    rfl
  refine ⟨?_, ?_, ⟨0, hval, le_refl 0, rfl⟩, hnone, hvalnone, ?_, ?_⟩
  · set_option maxRecDepth 100000 in decide
  · rw [configDefines_eq]; decide
  · rw [hval, hvalnone]
    exact Option.noConfusion
  · intro n hn
    have hl : lookup n configWithoutDelay = lookup n configDefines := by
      rw [configWithoutDelay_eq]
      exact lookup_filter_ne _ _ hn _
    exact ⟨hl, by unfold macroValue; rw [hl]⟩

/-- Witness of C4 at the name RAW_USAGE_ID. -/
theorem wakeup_delay_absent_or_zero_witness :
    "RAW_USAGE_ID" ≠ "USB_SUSPEND_WAKEUP_DELAY" ∧
      lookup "RAW_USAGE_ID" configWithoutDelay = lookup "RAW_USAGE_ID" configDefines ∧
      macroValue "RAW_USAGE_ID" configWithoutDelay = macroValue "RAW_USAGE_ID" configDefines :=
  ⟨by decide, wakeup_delay_absent_or_zero.2.2.2.2.2.2 "RAW_USAGE_ID" (by decide)⟩

/-- C5: the layer-state width selection is unambiguous and equals 8 bits:
LAYER_STATE_8BIT is defined, LAYER_STATE_16BIT and LAYER_STATE_32BIT are not,
it is the only defined name that starts with LAYER_STATE_, and the derived
layerStateBitWidth is exactly 8. -/
theorem layer_state_width_is_8 :
    isDefined "LAYER_STATE_8BIT" configDefines = true ∧
    isDefined "LAYER_STATE_16BIT" configDefines = false ∧
    isDefined "LAYER_STATE_32BIT" configDefines = false ∧
    (definedNames configDefines).filter
        (fun n => "LAYER_STATE_".toList.isPrefixOf n.toList) = ["LAYER_STATE_8BIT"] ∧
    selectedWidths configDefines = [8] ∧
    layerStateBitWidth configDefines = some 8 ∧
    (deriveConfig configDefines).layerStateBitWidth = some 8 := by
  rw [configDefines_eq]
  decide

/-- C6: the kinds of the definitions of config.h.  The five names with an
empty replacement text are the four presence-only flags and the selector
LAYER_STATE_8BIT; exactly the four names USB_SUSPEND_WAKEUP_DELAY,
FIRMWARE_VERSION, RAW_USAGE_PAGE and RAW_USAGE_ID have a non-empty replacement
text, and it denotes a scalar; every definition is of one of the two kinds. -/
theorem definition_kinds :
    definedNames (configDefines.filter (fun d => d.body = "")) =
      ["ORYX_CONFIGURATOR", "IGNORE_MOD_TAP_INTERRUPT", "CAPS_LOCK_STATUS",
        "LAYER_STATE_8BIT", "DOUBLE_REPORT"] ∧
    definedNames (configDefines.filter (fun d => d.body ≠ "")) =
      ["USB_SUSPEND_WAKEUP_DELAY", "FIRMWARE_VERSION", "RAW_USAGE_PAGE", "RAW_USAGE_ID"] ∧
    definedNames (configDefines.filter (fun d => kindOf d = some Kind.presence)) =
      ["ORYX_CONFIGURATOR", "IGNORE_MOD_TAP_INTERRUPT", "CAPS_LOCK_STATUS",
        "LAYER_STATE_8BIT", "DOUBLE_REPORT"] ∧
    definedNames (configDefines.filter (fun d => kindOf d = some Kind.scalar)) =
      ["USB_SUSPEND_WAKEUP_DELAY", "FIRMWARE_VERSION", "RAW_USAGE_PAGE", "RAW_USAGE_ID"] ∧
    (∀ d ∈ configDefines,
      (kindOf d = some Kind.presence ∧ d.body = "") ∨
      (kindOf d = some Kind.scalar ∧ d.body ≠ "")) := by
  rw [configDefines_eq]
  decide

/-- Witness of C6 at the definition of RAW_USAGE_PAGE. -/
theorem definition_kinds_witness :
    (kindOf ⟨"RAW_USAGE_PAGE", "0xFF60"⟩ = some Kind.presence ∧
        (⟨"RAW_USAGE_PAGE", "0xFF60"⟩ : Define).body = "") ∨
      (kindOf ⟨"RAW_USAGE_PAGE", "0xFF60"⟩ = some Kind.scalar ∧
        (⟨"RAW_USAGE_PAGE", "0xFF60"⟩ : Define).body ≠ "") :=
  definition_kinds.2.2.2.2 ⟨"RAW_USAGE_PAGE", "0xFF60"⟩
    (by rw [configDefines_eq]; decide)

/-- C7: config.h is a flat set of definitions with no control flow.  Its
fourteen lines are the four lines of the leading block comment followed by
lines that are blank or a single object-like define directive; no line is a
conditional directive, an undef, an include, a function-like macro or any
other directive or text; and in every build the header is accepted and makes
the same nine definitions. -/
theorem flat_definitions :
    configParsed.length = 14 ∧
    configParsed.take 4 = List.replicate 4 Line.comment ∧
    (∀ l ∈ configParsed.drop 4, l = Line.blank ∨ ∃ n b, l = Line.define n b) ∧
    (∀ l ∈ configParsed,
      (∀ d a, l ≠ Line.conditional d a) ∧ (∀ n, l ≠ Line.undef n) ∧
      (∀ a, l ≠ Line.incl a) ∧ (∀ n, l ≠ Line.defineFn n) ∧
      (∀ d, l ≠ Line.other d) ∧ (∀ t, l ≠ Line.text t)) ∧
    (∀ b : Build, preprocess b configParsed = some configDefines) := by
  refine ⟨?_, ?_, ?_, ?_, ?_⟩
  · rw [configParsed_eq]; rfl
  · rw [configParsed_eq]; rfl
  · rw [configParsed_eq]
    intro l hl
    simp only [List.drop_succ_cons, List.drop_zero, List.mem_cons, List.mem_singleton,
      List.mem_nil_iff, or_false] at hl
    rcases hl with h | h | h | h | h | h | h | h | h | h <;> subst h <;> simp
  · rw [configParsed_eq]
    intro l hl
    simp only [List.mem_cons, List.mem_singleton, List.mem_nil_iff, or_false] at hl
    rcases hl with h | h | h | h | h | h | h | h | h | h | h | h | h | h <;> subst h <;> simp
  · intro b
    rw [configDefines_eq, configParsed_eq]
    rfl

/-- Witness of C7 at line 7 of the file. -/
theorem flat_definitions_witness :
    Line.define "USB_SUSPEND_WAKEUP_DELAY" "0" = Line.blank ∨
      ∃ n b, Line.define "USB_SUSPEND_WAKEUP_DELAY" "0" = Line.define n b :=
  flat_definitions.2.2.1 (Line.define "USB_SUSPEND_WAKEUP_DELAY" "0")
    (by rw [configParsed_eq]; decide)

end ConfigH
